import Mathlib

/-!
Verification of the multi-tenant claims-management API.

This file gives a shallow embedding of the tenant-context mechanism
(src/tenancy/utils.py, src/tenancy/middleware.py, src/tenancy/models.py),
the role-based claim authorization (src/claims/permissions.py,
src/claims/views.py), the claim update serializers
(src/claims/serializers.py, src/claims/validators.py), the bulk status
update endpoint (src/claims/views.py), and the patient-status workflow
(src/claims/views.py, src/claims/tasks.py), and proves or refutes the
behavioural claims about them.

Databases are modelled as lists of records; machine-level concerns
(UUIDs, timestamps, SQL locking) are elided: ids are naturals, the
decimal amount is an integer number of currency units, and the date,
timestamp and procedure-code columns, which no claim mentions, are
omitted from the record types.
-/

namespace OdiClaims

/-- User.Role from src/claims/models.py: TextChoices admin,
claims_processor, provider, patient. -/
inductive Role where
  | admin
  | claimsProcessor
  | provider
  | patient
deriving DecidableEq, Repr

/-- HTTP methods relevant to the viewsets. -/
inductive Method where
  | GET
  | HEAD
  | OPTIONS
  | POST
  | PUT
  | PATCH
  | DELETE
deriving DecidableEq, Repr

/-- rest_framework.permissions.SAFE_METHODS = (GET, HEAD, OPTIONS). -/
def isSafeMethod : Method → Bool
  | .GET => true
  | .HEAD => true
  | .OPTIONS => true
  | _ => false

/-- User from src/claims/models.py: id, organization (FK, non-null),
globally unique email, role.  Fields not used by any claim (names,
is_active, created_at, password) are elided. -/
structure User where
  id : Nat
  organization : Nat
  email : String
  role : Role
deriving DecidableEq, Repr

/-- Claim from src/claims/models.py.  `patientEmail` stands for the
joined `patient.email` used by the patient ownership filter and the
patient object permission; `providerId` / `assignedProcessor` stand for
the provider / assigned_processor foreign keys (comparison of model
instances in the source is comparison by primary key).  `status` is the
raw CharField value: the Claim.Status enum values are the strings
"submitted", "under_review", "approved", "rejected", "paid", but the
column itself holds an arbitrary string.  procedure_code, the date
columns and the timestamps are elided (no claim mentions them). -/
structure Claim where
  id : Nat
  organization : Nat
  patientId : Nat
  patientEmail : String
  providerId : Nat
  assignedProcessor : Option Nat
  status : String
  diagnosis_code : String
  amount : Int
  approval_reason : Option String
  rejection_reason : Option String
deriving DecidableEq, Repr

/-- PatientStatus from src/claims/models.py: id, organization, patient
FK, status_type CharField (choices admission, discharge,
treatment_initiated), details JSONField (modelled as a string-to-string
association list, which is all `details.get("treatment_type", "N/A")`
needs).  facility_name and the timestamps are elided. -/
structure PatientStatusRec where
  id : Nat
  organization : Nat
  patientId : Nat
  status_type : String
  details : List (String × String)
deriving DecidableEq, Repr

/-! ### Tenant context (src/tenancy/utils.py and src/tenancy/middleware.py)

The thread-local slot `_thread_local.tenant` is modelled as an
`Option Nat` (the current organization id, or none when the attribute
is unset). -/

/-- tenancy.utils.get_current_tenant: `getattr(_thread_local, "tenant", None)`. -/
def get_current_tenant (slot : Option Nat) : Option Nat := slot

/-- tenancy.utils.set_current_tenant: assigns `_thread_local.tenant = tenant`
and falls off the end of the function body, so its Python return value is
None.  The result pair is (returned value, new slot state); the first
component is the value the caller's `token = set_current_tenant(...)`
assignment receives. -/
def set_current_tenant (tenant : Nat) (_slot : Option Nat) : Option Unit × Option Nat :=
  (none, some tenant)

/-- tenancy.utils.reset_current_tenant: deletes the attribute if present,
leaving the slot unset. -/
def reset_current_tenant (_slot : Option Nat) : Option Nat := none

/-- The part of an inbound request the middleware looks at. -/
structure HttpRequest where
  isAuthenticated : Bool
  userOrg : Option Nat
deriving DecidableEq, Repr

/-- TenantMiddleware.__call__ from src/tenancy/middleware.py, as a
transformer of the thread-local slot.  `token` receives the return value
of set_current_tenant; the downstream handler (get_response) does not
touch the slot, and the `finally` clause runs on both the normal and the
raising exit path, so the slot state at middleware exit is the same on
both paths and is what this function returns. -/
def tenantMiddlewareFinalState (req : HttpRequest) (slot : Option Nat) : Option Nat :=
  let step : Option Unit × Option Nat :=
    match req.isAuthenticated, req.userOrg with
    | true, some org => set_current_tenant org slot
    | _, _ => (none, slot)
  match step.1 with
  | some _ => reset_current_tenant step.2
  | none => step.2

/-! ### Tenant-scoped manager (src/tenancy/models.py)

TenantManager.get_queryset filters by the ambient tenant when one is
set and returns the unfiltered set otherwise.  During an authenticated
request the middleware has just executed
`set_current_tenant(request.user.organization)` (the reset bug only
affects the state after the middleware returns), and User.organization
is a non-nullable foreign key, so inside a view the ambient tenant is
the caller's organization. -/

/-- TenantManager.get_queryset over the claims table. -/
def tenantQueryset (tenant : Option Nat) (db : List Claim) : List Claim :=
  match tenant with
  | none => db
  | some t => db.filter (fun c => c.organization == t)

/-- TenantManager.get_queryset over the patient-status table. -/
def tenantPatientStatusQueryset (tenant : Option Nat) (db : List PatientStatusRec) :
    List PatientStatusRec :=
  match tenant with
  | none => db
  | some t => db.filter (fun r => r.organization == t)

/-! ### ClaimViewSet.get_queryset (src/claims/views.py, lines 29-41) -/

/-- The role-based ownership filter of ClaimViewSet.get_queryset: a
claims processor sees claims assigned to them, a provider the claims
they provided, a patient the claims whose patient email equals their
email; the fall-through case (admins) returns the queryset unchanged. -/
def roleFilter (u : User) (qs : List Claim) : List Claim :=
  match u.role with
  | .claimsProcessor => qs.filter (fun c => c.assignedProcessor == some u.id)
  | .provider => qs.filter (fun c => c.providerId == u.id)
  | .patient => qs.filter (fun c => c.patientEmail == u.email)
  | .admin => qs

/-- ClaimViewSet.get_queryset for an authenticated caller: the
tenant-filtered manager (ambient tenant = the caller's organization,
set by the middleware) further narrowed by the role filter. -/
def getQueryset (u : User) (db : List Claim) : List Claim :=
  roleFilter u (tenantQueryset (some u.organization) db)

/-- The ownership condition each role's branch of get_queryset filters
by, as a Bool on a single claim. -/
def roleOwns (u : User) (c : Claim) : Bool :=
  match u.role with
  | .claimsProcessor => c.assignedProcessor == some u.id
  | .provider => c.providerId == u.id
  | .patient => c.patientEmail == u.email
  | .admin => true

/-! ### Object-level permission (src/claims/permissions.py) -/

/-- CanManageClaim.has_object_permission: admins get full access,
processors access to their assigned claims, providers and patients
read-only (SAFE_METHODS) access to their own claims.  The source's
`case _: return False` branch is unreachable with the closed Role
enum. -/
def has_object_permission (u : User) (m : Method) (c : Claim) : Bool :=
  match u.role with
  | .admin => true
  | .claimsProcessor => c.assignedProcessor == some u.id
  | .provider => c.providerId == u.id && isSafeMethod m
  | .patient => c.patientEmail == u.email && isSafeMethod m

/-! ### Field validators (src/claims/validators.py, src/claims/serializers.py) -/

/-- validate_diagnosis_code: the regex `[A-Z][0-9]{2}(\.[0-9]{1,4})?`
anchored on both sides, written out over the character list. -/
def diagnosisCodeOk (v : String) : Bool :=
  match v.toList with
  | a :: b :: c :: rest =>
    a.isUpper && b.isDigit && c.isDigit &&
      (rest.isEmpty ||
        (match rest with
         | dot :: frac =>
           dot == '.' && 1 ≤ frac.length && frac.length ≤ 4 && frac.all Char.isDigit
         | [] => false))
  | _ => false

/-- The amount bound of ClaimSerializer: DecimalField with min_value 1
and max_value 10_000_000 (the two-decimal-place width is elided along
with the decimal representation). -/
def amountOk (a : Int) : Bool :=
  1 ≤ a && a ≤ 10000000

/-! ### Serializers (src/claims/serializers.py) -/

/-- The body of a single-item update request: each field is `some v`
when the client supplied it and `none` when absent.  Only the fields the
embedding carries are represented. -/
structure UpdateData where
  status : Option String
  approval_reason : Option String
  rejection_reason : Option String
  amount : Option Int
  diagnosis_code : Option String
deriving DecidableEq, Repr

/-- The DRF action name a method maps to on a detail route. -/
def actionOf : Method → String
  | .PUT => "update"
  | .PATCH => "partial_update"
  | .DELETE => "destroy"
  | .POST => "create"
  | _ => "retrieve"

/-- ClaimViewSet.get_serializer_class: ClaimStatusUpdateSerializer
exactly when the action is partial_update and "status" is in the request
data; ClaimSerializer otherwise. -/
def usesStatusSerializer (m : Method) (d : UpdateData) : Bool :=
  actionOf m == "partial_update" && d.status.isSome

/-- Whether a claim is in one of the frozen statuses checked by
ClaimStatusUpdateSerializer.validate_status and by bulk_status_update:
Claim.Status.APPROVED or Claim.Status.PAID. -/
def claimFrozen (c : Claim) : Bool :=
  c.status == "approved" || c.status == "paid"

/-- ClaimStatusUpdateSerializer validation: validate_status rejects when
the instance is already approved or paid, and validate rejects when the
acting user's role is not claims_processor.  Both failures surface as a
ValidationError (400). -/
def statusSerializerValid (u : User) (c : Claim) : Bool :=
  !claimFrozen c && u.role == Role.claimsProcessor

/-- Applying a validated ClaimStatusUpdateSerializer partial update:
only the fields of the restricted representation (status,
approval_reason, rejection_reason) that were supplied are written. -/
def applyStatusUpdate (c : Claim) (d : UpdateData) : Claim :=
  { c with
    status := d.status.getD c.status
    approval_reason := (d.approval_reason.map some).getD c.approval_reason
    rejection_reason := (d.rejection_reason.map some).getD c.rejection_reason }

/-- ClaimSerializer validation on update.  PATCH is partial (absent
fields are simply not validated or written); PUT requires the writable
required fields to be present (of the fields this embedding carries,
amount and diagnosis_code).  Supplied fields run their validators. -/
def claimSerializerValid (partialReq : Bool) (d : UpdateData) : Bool :=
  (partialReq || (d.amount.isSome && d.diagnosis_code.isSome)) &&
  (match d.diagnosis_code with
   | some v => diagnosisCodeOk v
   | none => true) &&
  (match d.amount with
   | some a => amountOk a
   | none => true)

/-- Applying a validated ClaimSerializer update: the supplied writable
fields are written.  `status` is in read_only_fields, so even a supplied
status value is silently ignored here. -/
def applyClaimUpdate (c : Claim) (d : UpdateData) : Claim :=
  { c with
    amount := d.amount.getD c.amount
    diagnosis_code := d.diagnosis_code.getD c.diagnosis_code
    approval_reason := (d.approval_reason.map some).getD c.approval_reason
    rejection_reason := (d.rejection_reason.map some).getD c.rejection_reason }

/-! ### Single-item endpoints -/

/-- Outcome status codes the claims core produces. -/
inductive HttpStatus where
  | ok
  | created
  | noContent
  | badRequest
  | forbidden
  | notFound
deriving DecidableEq, Repr

/-- Replacing the row with the given id (model .save() of a fetched and
modified instance). -/
def dbReplace (db : List Claim) (cid : Nat) (c' : Claim) : List Claim :=
  db.map (fun x => if x.id == cid then c' else x)

/-- The status column of the row with the given id (none when no such
row exists). -/
def statusOf (db : List Claim) (cid : Nat) : Option String :=
  (db.find? (fun c => c.id == cid)).map (fun c => c.status)

/-- GET /claims/{id}/: DRF's get_object fetches from the role- and
tenant-filtered queryset (404 when absent) and then checks the object
permission (403 when denied). -/
def retrieveClaimEndpoint (u : User) (cid : Nat) (db : List Claim) :
    HttpStatus × Option Claim :=
  match (getQueryset u db).find? (fun c => c.id == cid) with
  | none => (.notFound, none)
  | some c =>
    if has_object_permission u .GET c then (.ok, some c) else (.forbidden, none)

/-- PUT/PATCH /claims/{id}/: get_object (404 / 403 as above), then the
serializer selected by get_serializer_class validates (400 on failure)
and, on success, writes the row. -/
def updateClaimEndpoint (u : User) (m : Method) (d : UpdateData) (cid : Nat)
    (db : List Claim) : HttpStatus × List Claim :=
  match (getQueryset u db).find? (fun c => c.id == cid) with
  | none => (.notFound, db)
  | some c =>
    if has_object_permission u m c then
      if usesStatusSerializer m d then
        if statusSerializerValid u c then
          (.ok, dbReplace db cid (applyStatusUpdate c d))
        else (.badRequest, db)
      else
        if claimSerializerValid (m == Method.PATCH) d then
          (.ok, dbReplace db cid (applyClaimUpdate c d))
        else (.badRequest, db)
    else (.forbidden, db)

/-- DELETE /claims/{id}/: get_object, object permission, then the row is
deleted (204 No Content). -/
def deleteClaimEndpoint (u : User) (cid : Nat) (db : List Claim) :
    HttpStatus × List Claim :=
  match (getQueryset u db).find? (fun c => c.id == cid) with
  | none => (.notFound, db)
  | some c =>
    if has_object_permission u .DELETE c then
      (.noContent, db.filter (fun x => !(x.id == cid)))
    else (.forbidden, db)

/-! ### Bulk status update (src/claims/views.py, lines 48-74) -/

/-- The response body of bulk_status_update. -/
structure BulkResponse where
  updated_count : Nat
  errors : List String
deriving DecidableEq, Repr

/-- Outcome of the bulk endpoint: 200 with counts and per-row errors, or
the 400 guard response. -/
inductive BulkOutcome where
  | ok (r : BulkResponse)
  | badRequest (msg : String)
deriving DecidableEq, Repr

/-- The per-row error message recorded for an already-frozen claim:
f-string `Claim {claim.id} is already {claim.status}`. -/
def bulkMsg (c : Claim) : String :=
  "Claim " ++ toString c.id ++ " is already " ++ c.status

/-- Setting the status column of one row (model the UPDATE performed by
claim.save() inside the loop). -/
def dbSetStatus (db : List Claim) (cid : Nat) (s : String) : List Claim :=
  db.map (fun x => if x.id == cid then { x with status := s } else x)

/-- The loop body of bulk_status_update over the locked queryset rows:
an approved or paid row contributes an error message and is skipped, any
other row has its status set to the requested value and is counted.
Returns (updated_count, errors, final table). -/
def bulkApply : List Claim → String → List Claim → Nat × List String × List Claim
  | [], _, db => (0, [], db)
  | c :: rest, s, db =>
    if claimFrozen c then
      let r := bulkApply rest s db
      (r.1, bulkMsg c :: r.2.1, r.2.2)
    else
      let r := bulkApply rest s (dbSetStatus db c.id s)
      (r.1 + 1, r.2.1, r.2.2)

/-- POST /claims/bulk-status-update/.  Missing claim_ids or a falsy
status (absent or the empty string) is rejected with 400 before anything
is read.  Otherwise the caller's own filtered queryset, narrowed to the
requested ids, is locked and processed row by row inside one
transaction. -/
def bulk_status_update (u : User) (claim_ids : List Nat) (new_status : String)
    (db : List Claim) : BulkOutcome × List Claim :=
  if claim_ids.isEmpty || new_status == "" then
    (.badRequest "claim_ids and status are required", db)
  else
    let qs := (getQueryset u db).filter (fun c => decide (c.id ∈ claim_ids))
    let r := bulkApply qs new_status db
    (.ok ⟨r.1, r.2.1⟩, r.2.2)

/-! ### PatientStatus workflow (src/claims/views.py, lines 77-110, and
src/claims/tasks.py) -/

/-- A background job payload, keyed as in the three .delay_on_commit
call sites of PatientStatusViewSet.perform_create. -/
inductive Job where
  | admission (patient_id organization_id : Nat)
  | discharge (patient_id organization_id : Nat)
  | treatment (patient_id organization_id : Nat) (treatment_type : String)
deriving DecidableEq, Repr

/-- PatientStatusViewSet.perform_create, as the list of jobs whose
enqueueing delay_on_commit registers against the creating transaction's
commit (Celery's delay_on_commit defers the enqueue until the enclosing
transaction commits; nothing is enqueued if it rolls back).  The match
on status_type dispatches exactly one job for a recognized type and
none otherwise. -/
def perform_create (r : PatientStatusRec) : List Job :=
  if r.status_type == "admission" then
    [Job.admission r.patientId r.organization]
  else if r.status_type == "discharge" then
    [Job.discharge r.patientId r.organization]
  else if r.status_type == "treatment_initiated" then
    [Job.treatment r.patientId r.organization
      (((r.details.find? (fun kv => kv.1 == "treatment_type")).map (fun kv => kv.2)).getD "N/A")]
  else []

/-- The row predicate of the admission task's queryset:
Claim.objects (tenant-filtered by the worker's ambient tenant, which is
unset in a fresh worker) .filter(patient_id, organization_id,
status=SUBMITTED). -/
def admissionPred (tenant : Option Nat) (pid oid : Nat) (c : Claim) : Bool :=
  (match tenant with
   | none => true
   | some t => c.organization == t) &&
  c.patientId == pid && c.organization == oid && c.status == "submitted"

/-- tasks.process_patient_admission: inside one transaction, locks the
submitted claims of the given patient and organization and issues a
single UPDATE setting them to under_review; returns the new table and
the affected count that is logged. -/
def process_patient_admission (tenant : Option Nat) (pid oid : Nat)
    (db : List Claim) : List Claim × Nat :=
  let count := (db.filter (admissionPred tenant pid oid)).length
  (db.map (fun c =>
     if admissionPred tenant pid oid c then { c with status := "under_review" } else c),
   count)

/-! ### PatientStatusViewSet surface (src/claims/views.py, lines 77-90,
src/project/urls.py) -/

/-- The actions DRF's ModelViewSet exposes for PatientStatusViewSet as
registered on the router in src/project/urls.py, plus its extra
`history` action.  Nothing restricts the set: the class overrides
neither http_method_names nor the mixin list, and its only permission is
IsAuthenticated. -/
def patientStatusExposedActions : List String :=
  ["list", "retrieve", "create", "update", "partial_update", "destroy", "history"]

/-- DELETE /patient-status/{id}/: IsAuthenticated is the only permission
class; get_object fetches from the tenant-filtered queryset (the
order_by of get_queryset does not affect lookup by id) and the row is
then deleted. -/
def destroyPatientStatus (isAuthenticated : Bool) (tenant : Option Nat) (sid : Nat)
    (db : List PatientStatusRec) : HttpStatus × List PatientStatusRec :=
  if !isAuthenticated then (.forbidden, db)
  else
    match (tenantPatientStatusQueryset tenant db).find? (fun r => r.id == sid) with
    | none => (.notFound, db)
    | some _ => (.noContent, db.filter (fun r => !(r.id == sid)))

/-- The error list carried by a bulk outcome (empty for the guard
response, which has no errors field). -/
def bulkErrors : BulkOutcome → List String
  | .ok r => r.errors
  | .badRequest _ => []

/-! ### Well-formedness -/

/-- The primary-key constraint: ids are pairwise distinct across the
claims table. -/
def uniqueIds (db : List Claim) : Prop :=
  (db.map (fun c => c.id)).Nodup

instance uniqueIdsDecidable (db : List Claim) : Decidable (uniqueIds db) := by
  unfold uniqueIds
  infer_instance

/-! ### Concrete instances

A small two-organization world used to instantiate the theorems:
organization 1 holds an admin, a claims processor, a patient user, a
submitted claim and an approved claim of patient 20 (both assigned to
the processor), and a submitted claim of another patient; organization 2
holds one submitted claim. -/

def userAdmin1 : User := ⟨1, 1, "admin@org1.example", Role.admin⟩

def userProc1 : User := ⟨2, 1, "processor@org1.example", Role.claimsProcessor⟩

def userPat1 : User := ⟨4, 1, "patient1@org1.example", Role.patient⟩

def claimSub : Claim :=
  ⟨5, 1, 20, "patient1@org1.example", 3, some 2, "submitted", "A00.0", 100, none, none⟩

def claimOrg2 : Claim :=
  ⟨6, 2, 21, "patient2@org2.example", 7, none, "submitted", "B00.0", 200, none, none⟩

def claimFrozenA : Claim :=
  ⟨8, 1, 20, "patient1@org1.example", 3, some 2, "approved", "C00.0", 300, none, none⟩

def claimOtherPat : Claim :=
  ⟨9, 1, 22, "other@org1.example", 3, none, "submitted", "D00.0", 50, none, none⟩

def dbMain : List Claim := [claimSub, claimOrg2, claimFrozenA, claimOtherPat]

def psRec1 : PatientStatusRec := ⟨1, 7, 3, "admission", []⟩

def psAdm : PatientStatusRec := ⟨11, 1, 20, "admission", []⟩

def dStatusApproved : UpdateData := ⟨some "approved", none, none, none, none⟩

def dStatusRejected : UpdateData := ⟨some "rejected", none, none, none, none⟩

def dAmount200 : UpdateData := ⟨none, none, none, some 200, none⟩

end OdiClaims
namespace OdiClaims

/-- Rows of a table with pairwise-distinct ids are determined by their id. -/
theorem eq_of_id_eq {db : List Claim} (hn : uniqueIds db) {x y : Claim}
    (hx : x ∈ db) (hy : y ∈ db) (h : x.id = y.id) : x = y := by
  induction db with
  | nil => cases hx
  | cons a l ih =>
    simp only [uniqueIds, List.map_cons, List.nodup_cons] at hn
    rcases List.mem_cons.mp hx with rfl | hx' <;> rcases List.mem_cons.mp hy with rfl | hy'
    · rfl
    · exfalso; apply hn.1; rw [h]; exact List.mem_map_of_mem _ hy'
    · exfalso; apply hn.1; rw [← h]; exact List.mem_map_of_mem _ hx'
    · exact ih hn.2 hx' hy'

theorem tenantQueryset_sublist (t : Option Nat) (db : List Claim) :
    (tenantQueryset t db).Sublist db := by
  cases t with
  | none => exact List.Sublist.refl _
  | some t => exact List.filter_sublist _

theorem roleFilter_sublist (u : User) (qs : List Claim) : (roleFilter u qs).Sublist qs := by
  unfold roleFilter
  cases u.role <;> first | exact List.Sublist.refl _ | exact List.filter_sublist _

theorem getQueryset_sublist (u : User) (db : List Claim) : (getQueryset u db).Sublist db :=
  (roleFilter_sublist u _).trans (tenantQueryset_sublist _ db)

/-- Membership in the caller's authorized queryset: same organization and
role-based ownership. -/
theorem mem_getQueryset {u : User} {db : List Claim} {c : Claim} :
    c ∈ getQueryset u db ↔ c ∈ db ∧ c.organization = u.organization ∧ roleOwns u c = true := by
  unfold getQueryset tenantQueryset roleFilter roleOwns
  cases u.role <;>
    simp [List.mem_filter, and_assoc, beq_iff_eq] <;>
    tauto

/-- find? by id over any sub-table returns exactly the sought row when it is
there. -/
theorem find_id_unique {db l : List Claim} (hn : uniqueIds db) (hsub : l.Sublist db)
    {c : Claim} (hc : c ∈ l) : l.find? (fun x => x.id == c.id) = some c := by
  have hsome : (l.find? (fun x => x.id == c.id)).isSome :=
    List.find?_isSome.mpr ⟨c, hc, by simp⟩
  rcases Option.isSome_iff_exists.mp hsome with ⟨x, hx⟩
  have hpx := List.find?_some hx
  have hxl : x ∈ l := List.mem_of_find?_eq_some hx
  have hxc : x = c := eq_of_id_eq hn (hsub.subset hxl) (hsub.subset hc) (by simpa using hpx)
  rw [hx, hxc]

/-- find? by id over a sub-table misses when the row was filtered out. -/
theorem find_id_none {db l : List Claim} (hn : uniqueIds db) (hsub : l.Sublist db)
    {c : Claim} (hc : c ∈ db) (hnot : c ∉ l) :
    l.find? (fun x => x.id == c.id) = none := by
  rw [List.find?_eq_none]
  intro x hxl hpx
  exact hnot ((eq_of_id_eq hn (hsub.subset hxl) hc (by simpa using hpx)) ▸ hxl)

theorem find_id_cases {db l : List Claim} (hn : uniqueIds db) (hsub : l.Sublist db)
    {c : Claim} (hc : c ∈ db) :
    l.find? (fun x => x.id == c.id) = none ∨ l.find? (fun x => x.id == c.id) = some c := by
  cases hx : l.find? (fun x => x.id == c.id) with
  | none => exact Or.inl rfl
  | some x =>
    right
    have hpx := List.find?_some hx
    have hxl : x ∈ l := List.mem_of_find?_eq_some hx
    rw [eq_of_id_eq hn (hsub.subset hxl) hc (by simpa using hpx)]

/-- find? by id over an id-preserving row transformation. -/
theorem find_map_id {db : List Claim} {f : Claim → Claim}
    (hf : ∀ x, (f x).id = x.id) (hn : uniqueIds db) {c : Claim} (hc : c ∈ db) :
    (db.map f).find? (fun x => x.id == c.id) = some (f c) := by
  have hn' : uniqueIds (db.map f) := by
    unfold uniqueIds
    rw [List.map_map]
    have hcomp : ((fun c : Claim => c.id) ∘ f) = (fun c : Claim => c.id) :=
      funext fun x => hf x
    rw [hcomp]; exact hn
  have hmem : f c ∈ db.map f := List.mem_map_of_mem f hc
  have h := find_id_unique hn' (List.Sublist.refl _) hmem
  rw [hf c] at h
  exact h

theorem statusOf_eq {db : List Claim} (hn : uniqueIds db) {c : Claim} (hc : c ∈ db) :
    statusOf db c.id = some c.status := by
  unfold statusOf
  rw [find_id_unique hn (List.Sublist.refl _) hc]
  rfl

theorem statusOf_map {db : List Claim} {f : Claim → Claim} (hf : ∀ x, (f x).id = x.id)
    (hn : uniqueIds db) {c : Claim} (hc : c ∈ db) :
    statusOf (db.map f) c.id = some (f c).status := by
  unfold statusOf
  rw [find_map_id hf hn hc]
  rfl

theorem length_filter_not (p : Claim → Bool) (l : List Claim) :
    (l.filter (fun c => !p c)).length = l.length - (l.filter p).length := by
  induction l with
  | nil => rfl
  | cons a l ih =>
    have hle := List.length_filter_le p l
    by_cases h : p a
    · simp [List.filter_cons, h, ih]
    · simp [List.filter_cons, h, ih]
      omega



/-- Characterization of the bulk-update loop over a queryset with
pairwise-distinct ids: the count is the number of non-frozen rows, the
errors are the messages of the frozen rows in order, and the final table
sets the requested status on exactly the rows whose id appears among
the non-frozen queryset rows. -/
theorem bulkApply_spec (s : String) :
    ∀ (qs db : List Claim), (qs.map (fun c => c.id)).Nodup →
      bulkApply qs s db =
        ((qs.filter (fun c => !claimFrozen c)).length,
         (qs.filter claimFrozen).map bulkMsg,
         db.map (fun c =>
           if c.id ∈ (qs.filter (fun c => !claimFrozen c)).map (fun c => c.id)
           then { c with status := s } else c)) := by
  intro qs
  induction qs with
  | nil =>
    intro db _
    simp [bulkApply]
  | cons c rest ih =>
    intro db hq
    simp only [List.map_cons, List.nodup_cons] at hq
    by_cases hf : claimFrozen c
    · rw [bulkApply, if_pos hf, ih db hq.2]
      have h1 : (c :: rest).filter (fun c => !claimFrozen c)
          = rest.filter (fun c => !claimFrozen c) := by
        rw [List.filter_cons, if_neg (by simp [hf])]
      have h2 : (c :: rest).filter claimFrozen = c :: rest.filter claimFrozen := by
        rw [List.filter_cons, if_pos (by simp [hf])]
      rw [h1, h2]
      simp
    · rw [bulkApply, if_neg hf, ih (dbSetStatus db c.id s) hq.2]
      have h1 : (c :: rest).filter (fun c => !claimFrozen c)
          = c :: rest.filter (fun c => !claimFrozen c) := by
        rw [List.filter_cons, if_pos (by simp [hf])]
      have h2 : (c :: rest).filter claimFrozen = rest.filter claimFrozen := by
        rw [List.filter_cons, if_neg (by simp [hf])]
      have hnotin : c.id ∉ (rest.filter (fun c => !claimFrozen c)).map (fun c => c.id) := by
        intro hmem
        apply hq.1
        have hsub : ((rest.filter (fun c => !claimFrozen c)).map (fun c => c.id)).Sublist
            (rest.map (fun c => c.id)) := (List.filter_sublist rest).map _
        exact hsub.subset hmem
      rw [h1, h2]
      have hdb : (dbSetStatus db c.id s).map
          (fun x =>
            if x.id ∈ (rest.filter (fun c => !claimFrozen c)).map (fun c => c.id)
            then { x with status := s } else x) =
          db.map (fun x =>
            if x.id ∈ (c :: rest.filter (fun c => !claimFrozen c)).map (fun c => c.id)
            then { x with status := s } else x) := by
        unfold dbSetStatus
        rw [List.map_map]
        apply List.map_congr_left
        intro x _
        simp only [Function.comp]
        by_cases hx : x.id = c.id
        · simp [hx, hnotin]
        · have hxb : (x.id == c.id) = false := by simpa using hx
          have hinner : (if (x.id == c.id) = true then { x with status := s } else x) = x := by
            rw [if_neg]
            simp [hxb]
          rw [hinner]
          simp only [List.map_cons]
          by_cases hm : x.id ∈ (rest.filter (fun c => !claimFrozen c)).map (fun c => c.id)
          · rw [if_pos hm, if_pos (List.mem_cons_of_mem _ hm)]
          · have hm2 : x.id ∉ c.id :: (rest.filter (fun c => !claimFrozen c)).map (fun c => c.id) := by
              intro hmem
              rcases List.mem_cons.mp hmem with h | h
              · exact hx h
              · exact hm h
            rw [if_neg hm, if_neg hm2]
      rw [hdb]
      simp

/-- Characterization of POST /claims/bulk-status-update/ when the guard
passes: the endpoint reports the non-frozen size of the resolved subset
(the caller's queryset intersected with the requested ids), one error
message per frozen resolved row, and writes the requested status to
exactly the non-frozen resolved rows. -/
theorem bulk_spec (u : User) (claim_ids : List Nat) (s : String) (db : List Claim)
    (hn : uniqueIds db) (hids : claim_ids.isEmpty = false) (hs : (s == "") = false) :
    bulk_status_update u claim_ids s db =
      (BulkOutcome.ok
        ⟨(((getQueryset u db).filter (fun c => decide (c.id ∈ claim_ids))).filter
            (fun c => !claimFrozen c)).length,
         (((getQueryset u db).filter (fun c => decide (c.id ∈ claim_ids))).filter
            claimFrozen).map bulkMsg⟩,
       db.map (fun c =>
         if c.id ∈ (((getQueryset u db).filter (fun c => decide (c.id ∈ claim_ids))).filter
             (fun c => !claimFrozen c)).map (fun c => c.id)
         then { c with status := s } else c)) := by
  have hsubq : (((getQueryset u db).filter (fun c => decide (c.id ∈ claim_ids)))).Sublist db :=
    (List.filter_sublist _).trans (getQueryset_sublist u db)
  have hq : (((getQueryset u db).filter (fun c => decide (c.id ∈ claim_ids))).map
      (fun c => c.id)).Nodup := by
    exact List.Nodup.sublist (hsubq.map _) hn
  unfold bulk_status_update
  rw [if_neg (by simp [hids, hs])]
  simp only []
  rw [bulkApply_spec s _ db hq]

end OdiClaims

namespace OdiClaims

/-- Neither serializer branch of the single-item update endpoint can change
the status column of a claim that is already approved or paid: the
status-update serializer fails validation on it, and the full serializer
treats status as read-only. -/
theorem update_frozen_status_unchanged (u : User) (m : Method) (d : UpdateData)
    (db : List Claim) (hn : uniqueIds db) (c : Claim) (hc : c ∈ db)
    (hf : claimFrozen c = true) :
    statusOf (updateClaimEndpoint u m d c.id db).2 c.id = some c.status := by
  rcases find_id_cases hn (getQueryset_sublist u db) hc with hfd | hfd
  · unfold updateClaimEndpoint
    rw [hfd]
    exact statusOf_eq hn hc
  · unfold updateClaimEndpoint
    rw [hfd]
    dsimp only
    by_cases hperm : has_object_permission u m c = true
    · rw [if_pos hperm]
      by_cases hss : usesStatusSerializer m d = true
      · rw [if_pos hss, if_neg (by simp [statusSerializerValid, hf])]
        exact statusOf_eq hn hc
      · rw [if_neg hss]
        by_cases hcv : claimSerializerValid (m == Method.PATCH) d = true
        · rw [if_pos hcv]
          unfold dbReplace
          have hfpres : ∀ x : Claim,
              ((fun x => if x.id == c.id then applyClaimUpdate c d else x) x).id = x.id := by
            intro x
            by_cases hx : x.id = c.id
            · simp [hx, applyClaimUpdate]
            · simp [hx]
          rw [statusOf_map hfpres hn hc]
          simp [applyClaimUpdate]
        · rw [if_neg hcv]
          exact statusOf_eq hn hc
    · rw [if_neg hperm]
      exact statusOf_eq hn hc

/-- The bulk endpoint never changes the status column of a claim that is
already approved or paid: frozen rows of the resolved subset are skipped
with an error message, and rows outside it are not touched at all. -/
theorem bulk_frozen_unchanged (u : User) (L : List Nat) (s : String)
    (db : List Claim) (hn : uniqueIds db) (c : Claim) (hc : c ∈ db)
    (hf : claimFrozen c = true) :
    statusOf (bulk_status_update u L s db).2 c.id = some c.status := by
  by_cases h1 : L.isEmpty = true
  · unfold bulk_status_update
    rw [if_pos (by simp [h1])]
    exact statusOf_eq hn hc
  · by_cases h2 : (s == "") = true
    · unfold bulk_status_update
      rw [if_pos (by simp [h2])]
      exact statusOf_eq hn hc
    · rw [bulk_spec u L s db hn (by simpa using h1) (by simpa using h2)]
      have hnotin : c.id ∉
          (((getQueryset u db).filter (fun c => decide (c.id ∈ L))).filter
              (fun c => !claimFrozen c)).map (fun c => c.id) := by
        intro hmem
        rcases List.mem_map.mp hmem with ⟨x, hx, hxid⟩
        have hxdb : x ∈ db :=
          ((List.filter_sublist _).trans ((List.filter_sublist _).trans
            (getQueryset_sublist u db))).subset hx
        have hxc : x = c := eq_of_id_eq hn hxdb hc hxid
        have hxnf := (List.mem_filter.mp hx).2
        rw [hxc] at hxnf
        simp [hf] at hxnf
      have hfpres : ∀ x : Claim,
          ((fun x =>
            if x.id ∈ (((getQueryset u db).filter (fun c => decide (c.id ∈ L))).filter
                (fun c => !claimFrozen c)).map (fun c => c.id)
            then { x with status := s } else x) x).id = x.id := by
        intro x
        dsimp only
        by_cases hx : x.id ∈ (((getQueryset u db).filter (fun c => decide (c.id ∈ L))).filter
            (fun c => !claimFrozen c)).map (fun c => c.id)
        · rw [if_pos hx]
        · rw [if_neg hx]
      rw [statusOf_map hfpres hn hc]
      rw [if_neg hnotin]

/-- C1: for every claim C and every authenticated caller whose organization
differs from C.organization, the single-item fetch of C yields NotFound
regardless of the caller's role: the tenant filter of the manager excludes
the row before any role or permission logic runs. -/
theorem C1_cross_tenant_read_is_not_found (u : User) (db : List Claim)
    (hn : uniqueIds db) (c : Claim) (hc : c ∈ db)
    (horg : u.organization ≠ c.organization) :
    retrieveClaimEndpoint u c.id db = (HttpStatus.notFound, none) := by
  have hnotin : c ∉ getQueryset u db := by
    intro hmem
    exact horg ((mem_getQueryset.mp hmem).2.1).symm
  unfold retrieveClaimEndpoint
  rw [find_id_none hn (getQueryset_sublist u db) hc hnotin]

theorem C1_witness :
    retrieveClaimEndpoint userAdmin1 6 dbMain = (HttpStatus.notFound, none) :=
  C1_cross_tenant_read_is_not_found userAdmin1 dbMain (by decide) claimOrg2
    (by decide) (by decide)

/-- C2: the claim says the ambient tenant is cleared on every exit path of
TenantMiddleware, relying on set_current_tenant returning a usable token.
The code contradicts it: set_current_tenant returns None, so the token
guard in the finally clause never fires and the tenant set for the request
is still ambient after the middleware returns. -/
theorem C2_middleware_never_clears_tenant :
    tenantMiddlewareFinalState ⟨true, some 1⟩ none = some 1 ∧
    get_current_tenant (tenantMiddlewareFinalState ⟨true, some 1⟩ none) ≠ none := by
  decide

/-- C6 counterexample: a Patient-role write against a same-organization
claim they do not own yields NotFound, not the Forbidden the claim
demands for writes regardless of ownership: the ownership filter of
get_queryset excludes the row before the object permission can run. -/
theorem C6_counterexample :
    updateClaimEndpoint userPat1 .PATCH dStatusApproved 9 dbMain
      = (HttpStatus.notFound, dbMain) ∧
    HttpStatus.notFound ≠ HttpStatus.forbidden := by
  decide

/-- C6 (amended): for a Patient-role user, a write (PUT, PATCH or DELETE)
against a claim they own — same organization and matching patient email —
yields Forbidden (the role is barred from writes), while any access to a
claim outside the tenant filter or the ownership filter yields NotFound,
never Forbidden. -/
theorem C6_amended_patient_writes (u : User) (hu : u.role = Role.patient)
    (db : List Claim) (hn : uniqueIds db) (c : Claim) (hc : c ∈ db)
    (d : UpdateData) :
    ((c.organization = u.organization ∧ c.patientEmail = u.email) →
      updateClaimEndpoint u .PATCH d c.id db = (HttpStatus.forbidden, db) ∧
      updateClaimEndpoint u .PUT d c.id db = (HttpStatus.forbidden, db) ∧
      deleteClaimEndpoint u c.id db = (HttpStatus.forbidden, db)) ∧
    (¬(c.organization = u.organization ∧ c.patientEmail = u.email) →
      updateClaimEndpoint u .PATCH d c.id db = (HttpStatus.notFound, db) ∧
      updateClaimEndpoint u .PUT d c.id db = (HttpStatus.notFound, db) ∧
      deleteClaimEndpoint u c.id db = (HttpStatus.notFound, db)) := by
  constructor
  · rintro ⟨ho, he⟩
    have hmem : c ∈ getQueryset u db :=
      mem_getQueryset.mpr ⟨hc, ho, by simp [roleOwns, hu, he]⟩
    have hfind := find_id_unique hn (getQueryset_sublist u db) hmem
    have hperm : ∀ m, isSafeMethod m = false → has_object_permission u m c = false := by
      intro m hm
      simp [has_object_permission, hu, hm]
    unfold updateClaimEndpoint deleteClaimEndpoint
    rw [hfind]
    dsimp only
    refine ⟨?_, ?_, ?_⟩
    · rw [if_neg (by simp [hperm Method.PATCH rfl])]
    · rw [if_neg (by simp [hperm Method.PUT rfl])]
    · rw [if_neg (by simp [hperm Method.DELETE rfl])]
  · intro hno
    have hnotin : c ∉ getQueryset u db := by
      intro hmem
      rcases mem_getQueryset.mp hmem with ⟨-, ho, hown⟩
      exact hno ⟨ho, by simpa [roleOwns, hu] using hown⟩
    have hfind := find_id_none hn (getQueryset_sublist u db) hc hnotin
    unfold updateClaimEndpoint deleteClaimEndpoint
    rw [hfind]
    exact ⟨rfl, rfl, rfl⟩

theorem C6_amended_witness :
    updateClaimEndpoint userPat1 .PATCH dStatusApproved 5 dbMain
      = (HttpStatus.forbidden, dbMain) ∧
    updateClaimEndpoint userPat1 .PATCH dStatusApproved 6 dbMain
      = (HttpStatus.notFound, dbMain) := by
  refine ⟨?_, ?_⟩
  · exact ((C6_amended_patient_writes userPat1 rfl dbMain (by decide) claimSub
      (by decide) dStatusApproved).1 (by decide)).1
  · exact ((C6_amended_patient_writes userPat1 rfl dbMain (by decide) claimOrg2
      (by decide) dStatusApproved).2 (by decide)).1

/-- C9 counterexample: the PatientStatus surface is not append-only — the
ModelViewSet exposes destroy, and an authenticated caller in the record's
organization deletes the record. -/
theorem C9_counterexample :
    "destroy" ∈ patientStatusExposedActions ∧
    destroyPatientStatus true (some 7) 1 [psRec1] = (HttpStatus.noContent, []) := by
  decide

/-- C9 (amended): PatientStatus creation triggers the async workflow, but
the records are not an append-only log at the API surface: the
ModelViewSet also exposes update and destroy guarded only by
IsAuthenticated, and an authenticated caller whose ambient tenant matches
a record's organization can delete it. -/
theorem C9_amended_destroy_exposed (db : List PatientStatusRec)
    (r : PatientStatusRec) (hr : r ∈ db) :
    "destroy" ∈ patientStatusExposedActions ∧
    (destroyPatientStatus true (some r.organization) r.id db).1 = HttpStatus.noContent ∧
    ∀ x ∈ (destroyPatientStatus true (some r.organization) r.id db).2, x.id ≠ r.id := by
  have hmem : r ∈ tenantPatientStatusQueryset (some r.organization) db := by
    simp [tenantPatientStatusQueryset, List.mem_filter, hr]
  refine ⟨by simp [patientStatusExposedActions], ?_⟩
  unfold destroyPatientStatus
  rw [if_neg (by simp)]
  cases hfd : (tenantPatientStatusQueryset (some r.organization) db).find?
      (fun x => x.id == r.id) with
  | none =>
    exfalso
    have := List.find?_eq_none.mp hfd r hmem
    simp at this
  | some y =>
    dsimp only
    constructor
    · rfl
    · intro x hx
      have := (List.mem_filter.mp hx).2
      simpa using this

theorem C9_amended_witness :
    "destroy" ∈ patientStatusExposedActions ∧
    (destroyPatientStatus true (some 7) 1 [psRec1]).1 = HttpStatus.noContent ∧
    ∀ x ∈ (destroyPatientStatus true (some 7) 1 [psRec1]).2, x.id ≠ 1 :=
  C9_amended_destroy_exposed [psRec1] psRec1 (by decide)

/-- C3 counterexample: an Approved claim is not fully immutable — an
admin's partial update of the amount (no status in the body) selects the
full ClaimSerializer, passes validation and writes the row: the request
succeeds and the amount changes from 300 to 200. -/
theorem C3_counterexample :
    (updateClaimEndpoint userAdmin1 .PATCH dAmount200 8 dbMain).1 = HttpStatus.ok ∧
    ((updateClaimEndpoint userAdmin1 .PATCH dAmount200 8 dbMain).2.find?
        (fun c => c.id == 8)).map (fun c => c.amount) = some 200 ∧
    claimFrozenA ∈ dbMain ∧ claimFrozenA.status = "approved" ∧
    claimFrozenA.amount = 300 := by
  decide

/-- C3 (amended): once a claim is Approved or Paid its STATUS can no longer
be changed — a status-bearing partial update fails validation, the full
serializer keeps status read-only, and the bulk endpoint skips frozen rows
— but the record is not fully immutable: its non-status fields remain
editable through the full-serializer update path. -/
theorem C3_amended_frozen_status_immutable (u : User) (m : Method)
    (_hm : m = Method.PUT ∨ m = Method.PATCH) (d : UpdateData) (L : List Nat)
    (s : String) (db : List Claim) (hn : uniqueIds db) (c : Claim) (hc : c ∈ db)
    (hf : claimFrozen c = true) :
    statusOf (updateClaimEndpoint u m d c.id db).2 c.id = some c.status ∧
    statusOf (bulk_status_update u L s db).2 c.id = some c.status :=
  ⟨update_frozen_status_unchanged u m d db hn c hc hf,
   bulk_frozen_unchanged u L s db hn c hc hf⟩

theorem C3_amended_witness :
    statusOf (updateClaimEndpoint userProc1 .PATCH dStatusRejected 8 dbMain).2 8
      = some "approved" ∧
    statusOf (bulk_status_update userProc1 [8] "rejected" dbMain).2 8
      = some "approved" :=
  C3_amended_frozen_status_immutable userProc1 .PATCH (Or.inr rfl)
    dStatusRejected [8] "rejected" dbMain (by decide) claimFrozenA (by decide)
    (by decide)

/-- C4: for a claim already Approved or Paid, a single-item status update
never succeeds and leaves the table unchanged, reaching the serializer it
fails with a ValidationError (400); in a bulk update the claim, when
resolved, contributes the error message "Claim X is already <status>" and
its status is unchanged afterwards. -/
theorem C4_frozen_rejects_status_change (u : User) (d : UpdateData) (s : String)
    (hd : d.status = some s) (db : List Claim) (hn : uniqueIds db) (c : Claim)
    (hc : c ∈ db) (hf : claimFrozen c = true) (L : List Nat) (t : String)
    (ht : (t == "") = false) (hidL : c.id ∈ L) :
    ((updateClaimEndpoint u .PATCH d c.id db).1 ≠ HttpStatus.ok ∧
     (updateClaimEndpoint u .PATCH d c.id db).2 = db) ∧
    (c ∈ getQueryset u db → has_object_permission u .PATCH c = true →
      (updateClaimEndpoint u .PATCH d c.id db).1 = HttpStatus.badRequest) ∧
    (c ∈ getQueryset u db →
      bulkMsg c ∈ bulkErrors (bulk_status_update u L t db).1) ∧
    statusOf (bulk_status_update u L t db).2 c.id = some c.status := by
  have hss : usesStatusSerializer Method.PATCH d = true := by
    simp [usesStatusSerializer, actionOf, hd]
  have hsv : statusSerializerValid u c = false := by
    simp [statusSerializerValid, hf]
  refine ⟨?_, ?_, ?_, bulk_frozen_unchanged u L t db hn c hc hf⟩
  · rcases find_id_cases hn (getQueryset_sublist u db) hc with hfd | hfd
    · unfold updateClaimEndpoint
      rw [hfd]
      exact ⟨by simp, rfl⟩
    · unfold updateClaimEndpoint
      rw [hfd]
      dsimp only
      by_cases hperm : has_object_permission u .PATCH c = true
      · rw [if_pos hperm, if_pos hss, if_neg (by simp [hsv])]
        exact ⟨by simp, rfl⟩
      · rw [if_neg hperm]
        exact ⟨by simp, rfl⟩
  · intro hmem hperm
    have hfd := find_id_unique hn (getQueryset_sublist u db) hmem
    unfold updateClaimEndpoint
    rw [hfd]
    dsimp only
    rw [if_pos hperm, if_pos hss, if_neg (by simp [hsv])]
  · intro hmem
    have hids : L.isEmpty = false := by
      cases L
      · cases hidL
      · rfl
    rw [bulk_spec u L t db hn hids ht]
    have hres : c ∈ ((getQueryset u db).filter (fun c => decide (c.id ∈ L))).filter
        claimFrozen :=
      List.mem_filter.mpr ⟨List.mem_filter.mpr ⟨hmem, by simp [hidL]⟩, hf⟩
    exact List.mem_map_of_mem _ hres

theorem C4_witness :
    (updateClaimEndpoint userProc1 .PATCH dStatusRejected 8 dbMain).1 ≠ HttpStatus.ok ∧
    (updateClaimEndpoint userProc1 .PATCH dStatusRejected 8 dbMain).1
      = HttpStatus.badRequest ∧
    bulkMsg claimFrozenA ∈ bulkErrors
      (bulk_status_update userProc1 [8] "under_review" dbMain).1 ∧
    statusOf (bulk_status_update userProc1 [8] "under_review" dbMain).2 8
      = some "approved" := by
  have h := C4_frozen_rejects_status_change userProc1 dStatusRejected "rejected"
    rfl dbMain (by decide) claimFrozenA (by decide) (by decide) [8] "under_review"
    (by decide) (by decide)
  exact ⟨h.1.1, h.2.1 (by decide) (by decide), h.2.2.1 (by decide), h.2.2.2⟩

/-- C5: a bulk status update touches only the caller's authorized queryset
intersected with the requested ids; ids outside that resolved subset are
silently excluded — every such row is returned unchanged and produces no
error entry — updated_count is exactly the resolved size minus the frozen
rows in it, and the errors are exactly one "Claim X is already <status>"
message per frozen resolved row. -/
theorem C5_bulk_scoping_and_count (u : User) (L : List Nat)
    (hL : L.isEmpty = false) (s : String) (hs : (s == "") = false)
    (db : List Claim) (hn : uniqueIds db) :
    (bulk_status_update u L s db).1 =
      BulkOutcome.ok
        ⟨((getQueryset u db).filter (fun c => decide (c.id ∈ L))).length -
           (((getQueryset u db).filter (fun c => decide (c.id ∈ L))).filter
             claimFrozen).length,
         (((getQueryset u db).filter (fun c => decide (c.id ∈ L))).filter
             claimFrozen).map bulkMsg⟩ ∧
    ∀ c ∈ db, c ∉ (getQueryset u db).filter (fun c => decide (c.id ∈ L)) →
      c ∈ (bulk_status_update u L s db).2 := by
  have hspec := bulk_spec u L s db hn hL hs
  constructor
  · rw [hspec]
    rw [length_filter_not claimFrozen]
  · intro c hcdb hcnot
    rw [hspec]
    have hnotin : c.id ∉
        (((getQueryset u db).filter (fun c => decide (c.id ∈ L))).filter
            (fun c => !claimFrozen c)).map (fun c => c.id) := by
      intro hmem
      rcases List.mem_map.mp hmem with ⟨x, hx, hxid⟩
      have hxdb : x ∈ db :=
        ((List.filter_sublist _).trans ((List.filter_sublist _).trans
          (getQueryset_sublist u db))).subset hx
      have hxc : x = c := eq_of_id_eq hn hxdb hcdb hxid
      exact hcnot (hxc ▸ (List.mem_filter.mp hx).1)
    exact List.mem_map.mpr ⟨c, hcdb, by rw [if_neg hnotin]⟩

theorem C5_witness :
    (bulk_status_update userAdmin1 [5, 6, 8] "approved" dbMain).1 =
      BulkOutcome.ok ⟨1, ["Claim 8 is already approved"]⟩ ∧
    claimOrg2 ∈ (bulk_status_update userAdmin1 [5, 6, 8] "approved" dbMain).2 := by
  have h := C5_bulk_scoping_and_count userAdmin1 [5, 6, 8] (by decide) "approved"
    (by decide) dbMain (by decide)
  refine ⟨?_, h.2 claimOrg2 (by decide) (by decide)⟩
  rw [h.1]
  decide

/-- C7: a single-item status update succeeds only when the acting user's
role is ClaimsProcessor: when the outcome is 200 the role was
claims_processor; any other role leaves the claim's status unchanged; and
an Admin of the claim's organization is rejected with a validation
failure (400). -/
theorem C7_status_update_requires_processor (u : User) (d : UpdateData)
    (s : String) (hd : d.status = some s) (db : List Claim) (hn : uniqueIds db)
    (c : Claim) (hc : c ∈ db) :
    ((updateClaimEndpoint u .PATCH d c.id db).1 = HttpStatus.ok →
      u.role = Role.claimsProcessor) ∧
    (u.role ≠ Role.claimsProcessor →
      statusOf (updateClaimEndpoint u .PATCH d c.id db).2 c.id = some c.status) ∧
    (u.role = Role.admin → c.organization = u.organization →
      (updateClaimEndpoint u .PATCH d c.id db).1 = HttpStatus.badRequest) := by
  have hss : usesStatusSerializer Method.PATCH d = true := by
    simp [usesStatusSerializer, actionOf, hd]
  rcases find_id_cases hn (getQueryset_sublist u db) hc with hfd | hfd
  · refine ⟨?_, ?_, ?_⟩
    · unfold updateClaimEndpoint
      rw [hfd]
      intro h
      cases h
    · intro _
      unfold updateClaimEndpoint
      rw [hfd]
      exact statusOf_eq hn hc
    · intro hadm horg
      exfalso
      have hmem : c ∈ getQueryset u db :=
        mem_getQueryset.mpr ⟨hc, horg, by simp [roleOwns, hadm]⟩
      rw [find_id_unique hn (getQueryset_sublist u db) hmem] at hfd
      cases hfd
  · refine ⟨?_, ?_, ?_⟩
    · unfold updateClaimEndpoint
      rw [hfd]
      dsimp only
      by_cases hperm : has_object_permission u .PATCH c = true
      · rw [if_pos hperm, if_pos hss]
        by_cases hsv : statusSerializerValid u c = true
        · rw [if_pos hsv]
          intro _
          have := hsv
          unfold statusSerializerValid at this
          rcases Bool.and_eq_true_iff.mp this with ⟨-, hrole⟩
          simpa using hrole
        · rw [if_neg hsv]
          intro h
          cases h
      · rw [if_neg hperm]
        intro h
        cases h
    · intro hrole
      unfold updateClaimEndpoint
      rw [hfd]
      dsimp only
      by_cases hperm : has_object_permission u .PATCH c = true
      · rw [if_pos hperm, if_pos hss]
        have hsv : statusSerializerValid u c = false := by
          unfold statusSerializerValid
          have : (u.role == Role.claimsProcessor) = false := by
            simpa using hrole
          simp [this]
        rw [if_neg (by simp [hsv])]
        exact statusOf_eq hn hc
      · rw [if_neg hperm]
        exact statusOf_eq hn hc
    · intro hadm _
      unfold updateClaimEndpoint
      rw [hfd]
      dsimp only
      have hperm : has_object_permission u .PATCH c = true := by
        simp [has_object_permission, hadm]
      rw [if_pos hperm, if_pos hss]
      have hsv : statusSerializerValid u c = false := by
        unfold statusSerializerValid
        simp [hadm]
      rw [if_neg (by simp [hsv])]

theorem C7_witness :
    (updateClaimEndpoint userAdmin1 .PATCH dStatusApproved 5 dbMain).1
      = HttpStatus.badRequest ∧
    statusOf (updateClaimEndpoint userAdmin1 .PATCH dStatusApproved 5 dbMain).2 5
      = some "submitted" := by
  have h := C7_status_update_requires_processor userAdmin1 dStatusApproved
    "approved" rfl dbMain (by decide) claimSub (by decide)
  exact ⟨h.2.2 rfl rfl, h.2.1 (by decide)⟩

/-- C8: creating a PatientStatus with status_type admission registers
exactly one post-commit background job keyed by the record's patient and
organization ids, and running that job moves every Submitted claim of that
patient and organization to UnderReview while returning every claim whose
status is not Submitted unchanged. -/
theorem C8_admission_enqueues_and_processes (r : PatientStatusRec)
    (hr : r.status_type = "admission") (pid oid : Nat) (db : List Claim) :
    perform_create r = [Job.admission r.patientId r.organization] ∧
    (∀ c ∈ db, c.patientId = pid → c.organization = oid →
      c.status = "submitted" →
      { c with status := "under_review" } ∈
        (process_patient_admission none pid oid db).1) ∧
    (∀ c ∈ db, c.status ≠ "submitted" →
      c ∈ (process_patient_admission none pid oid db).1) := by
  refine ⟨?_, ?_, ?_⟩
  · unfold perform_create
    rw [if_pos (by simp [hr])]
  · intro c hcdb h1 h2 h3
    have hp : admissionPred none pid oid c = true := by
      simp [admissionPred, h1, h2, h3]
    unfold process_patient_admission
    exact List.mem_map.mpr ⟨c, hcdb, by rw [if_pos hp]⟩
  · intro c hcdb h
    have hp : admissionPred none pid oid c = false := by
      have : (c.status == "submitted") = false := by simpa using h
      simp [admissionPred, this]
    unfold process_patient_admission
    exact List.mem_map.mpr ⟨c, hcdb, by rw [if_neg (by simp [hp])]⟩

theorem C8_witness :
    perform_create psAdm = [Job.admission 20 1] ∧
    { claimSub with status := "under_review" } ∈
      (process_patient_admission none 20 1 dbMain).1 ∧
    claimFrozenA ∈ (process_patient_admission none 20 1 dbMain).1 := by
  have h := C8_admission_enqueues_and_processes psAdm rfl 20 1 dbMain
  exact ⟨h.1, h.2.1 claimSub (by decide) rfl rfl rfl,
    h.2.2 claimFrozenA (by decide) (by decide)⟩

/-- C10 counterexample: the bulk endpoint does not apply every
caller-supplied string — the empty string is rejected by the falsy guard
with a 400 and no claim's status is set to it, where the claim asserts the
claim in the resolved subset would receive status "" and be counted. -/
theorem C10_counterexample :
    bulk_status_update userAdmin1 [5] "" dbMain
      = (BulkOutcome.badRequest "claim_ids and status are required", dbMain) ∧
    statusOf dbMain 5 = some "submitted" := by
  decide

/-- C10 (amended): for every NON-EMPTY string s — including values outside
the Claim status enum and transitions that skip or reverse the lifecycle
order — every claim of the caller's resolved subset not currently Approved
or Paid has its status set verbatim to s and is counted in
updated_count. -/
theorem C10_amended_no_status_validation (u : User) (L : List Nat) (s : String)
    (hs : (s == "") = false) (db : List Claim) (hn : uniqueIds db) (c : Claim)
    (hc : c ∈ getQueryset u db) (hid : c.id ∈ L) (hnf : claimFrozen c = false) :
    statusOf (bulk_status_update u L s db).2 c.id = some s ∧
    (bulk_status_update u L s db).1 =
      BulkOutcome.ok
        ⟨(((getQueryset u db).filter (fun c => decide (c.id ∈ L))).filter
            (fun c => !claimFrozen c)).length,
         (((getQueryset u db).filter (fun c => decide (c.id ∈ L))).filter
            claimFrozen).map bulkMsg⟩ ∧
    c ∈ ((getQueryset u db).filter (fun c => decide (c.id ∈ L))).filter
        (fun c => !claimFrozen c) := by
  have hcdb : c ∈ db := (getQueryset_sublist u db).subset hc
  have hids : L.isEmpty = false := by
    cases L
    · cases hid
    · rfl
  have hspec := bulk_spec u L s db hn hids hs
  have hcNF : c ∈ ((getQueryset u db).filter (fun c => decide (c.id ∈ L))).filter
      (fun c => !claimFrozen c) :=
    List.mem_filter.mpr ⟨List.mem_filter.mpr ⟨hc, by simp [hid]⟩, by simp [hnf]⟩
  refine ⟨?_, by rw [hspec], hcNF⟩
  rw [hspec]
  have hfpres : ∀ x : Claim,
      ((fun x =>
        if x.id ∈ (((getQueryset u db).filter (fun c => decide (c.id ∈ L))).filter
            (fun c => !claimFrozen c)).map (fun c => c.id)
        then { x with status := s } else x) x).id = x.id := by
    intro x
    dsimp only
    by_cases hx : x.id ∈ (((getQueryset u db).filter (fun c => decide (c.id ∈ L))).filter
        (fun c => !claimFrozen c)).map (fun c => c.id)
    · rw [if_pos hx]
    · rw [if_neg hx]
  rw [statusOf_map hfpres hn hcdb]
  rw [if_pos (List.mem_map_of_mem _ hcNF)]

theorem C10_amended_witness :
    statusOf (bulk_status_update userAdmin1 [5] "totally_bogus" dbMain).2 5
      = some "totally_bogus" :=
  (C10_amended_no_status_validation userAdmin1 [5] "totally_bogus" (by decide)
    dbMain (by decide) claimSub (by decide) (by decide) (by decide)).1

end OdiClaims